import Mathlib

/-
Shallow embedding of the Resume Analysis Engine
(src/backend/services/resume_analyzer.py, class ResumeAnalyzer).

Modelling conventions:
  * Python strings are Lean `String` (logically `List Char`); the ASCII
    fragment of Python's regex classes is modelled (`\w` as
    alphanumeric-or-underscore, `\s` as the six ASCII whitespace chars).
  * Python floats are modelled by `ℚ`; `round(x, 2)` is modelled as exact
    rational rounding to a multiple of 1/100 with ties to even (banker's
    rounding, Python's rounding mode).
  * External library calls (pdfplumber, PyPDF2, python-docx, NLTK's
    word_tokenize / stopword list / WordNetLemmatizer) are opaque
    parameters collected in a `Config` structure; the engine's own logic
    is embedded concretely.
  * The md5 content hash used as the Redis cache key is modelled by the
    byte sequence itself (the hash is treated as injective), and the Redis
    store (`get` / `setex` with TTL) as an association list from key to
    (value, expiry time) consulted at an explicit current time.
-/

/-- Python `\s` on ASCII: space, tab, newline, carriage return, vertical
tab, form feed. -/
def pyIsSpace (c : Char) : Bool :=
  c = ' ' || c = '\t' || c = '\n' || c = '\r' || c = '\x0b' || c = '\x0c'

/-- Python `\w` on ASCII: letters, digits, underscore. -/
def pyIsWordChar (c : Char) : Bool :=
  c.isAlphanum || c = '_'

/-- Python `str.strip()` (ASCII whitespace fragment) on a char list. -/
def stripList (l : List Char) : List Char :=
  ((l.dropWhile pyIsSpace).reverse.dropWhile pyIsSpace).reverse

/-- Replace every maximal run of whitespace by a single space
(`re.sub(r'\s+', ' ', ·)`); the Bool argument records whether the
previous character was whitespace. -/
def collapseWsAux : Bool → List Char → List Char
  | _, [] => []
  | prev, c :: cs =>
    if pyIsSpace c then
      if prev then collapseWsAux true cs
      else ' ' :: collapseWsAux true cs
    else c :: collapseWsAux false cs

/-- Lower-casing, `str.lower()` on the ASCII fragment. -/
def lowerStr (s : String) : String :=
  String.mk (s.data.map Char.toLower)

/-- Python `str.strip()` as a String operation. -/
def stripStr (s : String) : String :=
  String.mk (stripList s.data)

/-- `ResumeAnalyzer.clean_text`: collapse whitespace on the stripped text,
replace every character outside `[\w\s.,!?-]` by a space, lower-case. -/
def clean_text (text : String) : String :=
  let s1 := collapseWsAux false (stripList text.data)
  let s2 := s1.map fun c =>
    if pyIsWordChar c || pyIsSpace c || c = '.' || c = ',' || c = '!' || c = '?' || c = '-'
    then c else ' '
  String.mk (s2.map Char.toLower)

/-- Does `p` occur as a leading segment of `t`? -/
def leadsList : List Char → List Char → Bool
  | [], _ => true
  | _ :: _, [] => false
  | p :: ps, c :: cs => p = c && leadsList ps cs

/-- Python `p in t` substring test on char lists. -/
def hasSubstr (p : List Char) : List Char → Bool
  | [] => p.isEmpty
  | c :: cs => leadsList p (c :: cs) || hasSubstr p cs

/-- `self.ats_keywords["technical_skills"]` (verbatim from the source). -/
def technical_skills : List String :=
  ["python", "java", "javascript", "react", "angular", "vue", "node.js", "sql", "mongodb",
   "aws", "azure", "docker", "kubernetes", "git", "agile", "scrum", "machine learning",
   "data analysis", "statistics", "excel", "tableau", "power bi", "r", "matlab", "tensorflow",
   "pytorch", "scikit-learn", "pandas", "numpy", "html", "css", "bootstrap", "jquery",
   "typescript", "graphql", "rest api", "microservices", "ci/cd", "jenkins", "gitlab"]

/-- `self.ats_keywords["soft_skills"]` (verbatim from the source). -/
def soft_skills : List String :=
  ["leadership", "communication", "teamwork", "problem solving", "critical thinking",
   "time management", "project management", "customer service", "collaboration",
   "adaptability", "creativity", "analytical", "detail-oriented", "multitasking"]

/-- `self.ats_keywords["certifications"]` (verbatim from the source). -/
def certifications : List String :=
  ["pmp", "scrum master", "aws certified", "azure certified", "google cloud",
   "cisco", "comptia", "microsoft certified", "oracle certified", "salesforce"]

/-- `self.ats_keywords["education"]` (verbatim from the source). -/
def education_terms : List String :=
  ["bachelor", "master", "phd", "degree", "university", "college", "gpa"]

/-- `ResumeAnalyzer.extract_skills`: case-insensitive substring search of
the raw text against the technical and soft skill vocabularies, then
deduplication (`list(set(...))`). -/
def extract_skills (text : String) : List String :=
  let tl := (lowerStr text).data
  ((technical_skills.filter fun sk => hasSubstr sk.data tl) ++
   (soft_skills.filter fun sk => hasSubstr sk.data tl)).dedup

/-- External collaborators of the engine: the two PDF extraction
strategies (pdfplumber, PyPDF2), the DOCX extractor (python-docx), and
NLTK's tokenizer, stopword list and lemmatizer.  Each PDF/DOCX strategy
returns `none` where the Python library would raise. -/
structure Config where
  pdfStrategyA : List Nat → Option String
  pdfStrategyB : List Nat → Option String
  docxExtract : List Nat → Option String
  word_tokenize : String → List String
  stop_words : List String
  lemmatize : String → String

/-- `ResumeAnalyzer.extract_text_from_pdf`: try strategy A (pdfplumber);
on failure try strategy B (PyPDF2); on failure return the empty string. -/
def extract_text_from_pdf (cfg : Config) (file_content : List Nat) : String :=
  match cfg.pdfStrategyA file_content with
  | some t => t
  | none =>
    match cfg.pdfStrategyB file_content with
    | some t => t
    | none => ""

/-- `ResumeAnalyzer.extract_text_from_docx`: one strategy (python-docx);
on failure return the empty string. -/
def extract_text_from_docx (cfg : Config) (file_content : List Nat) : String :=
  match cfg.docxExtract file_content with
  | some t => t
  | none => ""

/-- `ResumeAnalyzer.extract_keywords`: tokenize the cleaned text, drop
stopwords and tokens of length at most 2, lemmatize, deduplicate
(`list(set(...))`). -/
def extract_keywords (cfg : Config) (text : String) : List String :=
  let tokens := cfg.word_tokenize (clean_text text)
  let tokens := tokens.filter fun t =>
    !(cfg.stop_words.contains (lowerStr t)) && decide (2 < t.length)
  (tokens.map cfg.lemmatize).dedup

/-- One-or-more ASCII digits at the head of the list (`\d+`, greedy). -/
def takeDigits (l : List Char) : List Char := l.takeWhile Char.isDigit

/-- Remainder after the leading digits. -/
def dropDigits (l : List Char) : List Char := l.dropWhile Char.isDigit

/-- `\s*` (greedy; exact here since no following regex atom matches a
whitespace character). -/
def dropSpaces (l : List Char) : List Char := l.dropWhile pyIsSpace

/-- Match a literal regex fragment, returning the rest of the input. -/
def litMatch : List Char → List Char → Option (List Char)
  | [], t => some t
  | _ :: _, [] => none
  | p :: ps, c :: cs => if c = p then litMatch ps cs else none

/-- `a?` (greedy; exact for the patterns below since no following atom can
match `a` at the same position). -/
def optCharMatch (a : Char) : List Char → List Char
  | [] => []
  | c :: cs => if c = a then cs else c :: cs

/-- Numeric value of a digit string (`int(match.group(1))`). -/
def digitsVal (l : List Char) : Nat :=
  l.foldl (fun acc c => acc * 10 + (c.toNat - 48)) 0

/-- The regex `(\d+)\s*years?\s*of\s*experience` anchored at the current
position, returning the captured integer. -/
def matchPat1 (cs : List Char) : Option Nat :=
  let ds := takeDigits cs
  if ds.isEmpty then none else
  match litMatch "year".data (dropSpaces (dropDigits cs)) with
  | none => none
  | some r1 =>
    match litMatch "of".data (dropSpaces (optCharMatch 's' r1)) with
    | none => none
    | some r2 =>
      match litMatch "experience".data (dropSpaces r2) with
      | none => none
      | some _ => some (digitsVal ds)

/-- The regex `experience:\s*(\d+)\s*years?` anchored at the current
position, returning the captured integer. -/
def matchPat2 (cs : List Char) : Option Nat :=
  match litMatch "experience:".data cs with
  | none => none
  | some r1 =>
    let ds := takeDigits (dropSpaces r1)
    if ds.isEmpty then none else
    match litMatch "year".data (dropSpaces (dropDigits (dropSpaces r1))) with
    | none => none
    | some _ => some (digitsVal ds)

/-- The regex `(\d+)\s*years?\s*in\s*the\s*field` anchored at the current
position, returning the captured integer. -/
def matchPat3 (cs : List Char) : Option Nat :=
  let ds := takeDigits cs
  if ds.isEmpty then none else
  match litMatch "year".data (dropSpaces (dropDigits cs)) with
  | none => none
  | some r1 =>
    match litMatch "in".data (dropSpaces (optCharMatch 's' r1)) with
    | none => none
    | some r2 =>
      match litMatch "the".data (dropSpaces r2) with
      | none => none
      | some r3 =>
        match litMatch "field".data (dropSpaces r3) with
        | none => none
        | some _ => some (digitsVal ds)

/-- `re.search`: try the anchored matcher at each start position, left to
right, returning the first hit. -/
def reSearch (m : List Char → Option Nat) : List Char → Option Nat
  | [] => m []
  | c :: cs =>
    match m (c :: cs) with
    | some n => some n
    | none => reSearch m cs

/-- `ResumeAnalyzer.extract_experience_years`: run the three patterns, in
order, over the lower-cased text; return the first capture, else none. -/
def extract_experience_years (text : String) : Option Nat :=
  match reSearch matchPat1 ((lowerStr text).data) with
  | some n => some n
  | none =>
    match reSearch matchPat2 ((lowerStr text).data) with
    | some n => some n
    | none => reSearch matchPat3 ((lowerStr text).data)

/-- The regex fragment `s?\s*degree` anchored at the current position. -/
def sDegreeAt (cs : List Char) : Bool :=
  (litMatch "degree".data (dropSpaces (optCharMatch 's' cs))).isSome

/-- The regex fragment `[^s]*s?\s*degree` anchored at the current
position: either the tail matches here with `[^s]*` empty, or the head is
a non-`s` character consumed by `[^s]*` (this disjunction over consumed
lengths is exactly the backtracking semantics of the greedy `[^s]*`). -/
def degTail : List Char → Bool
  | [] => false
  | c :: cs => sDegreeAt (c :: cs) || (if c = 's' then false else degTail cs)

/-- A degree regex `<word>[^s]*s?\s*degree` anchored at the current
position. -/
def degreeAt (word : String) (cs : List Char) : Bool :=
  match litMatch word.data cs with
  | none => false
  | some r => degTail r

/-- The regex `ph\.?d\.?` anchored at the current position (the trailing
`\.?` always succeeds and is dropped). -/
def phdAt (cs : List Char) : Bool :=
  match litMatch "ph".data cs with
  | none => false
  | some r1 => (litMatch "d".data (optCharMatch '.' r1)).isSome

/-- Boolean `re.search`: does the anchored matcher hit at any start
position? -/
def reSearchB (m : List Char → Bool) : List Char → Bool
  | [] => m []
  | c :: cs => m (c :: cs) || reSearchB m cs

/-- `ResumeAnalyzer.extract_education`: for each of the four degree
patterns matching anywhere in the lower-cased text, append the label the
source derives from the pattern string itself
(`pattern.replace(r'[^s]*s?\s*degree', 's degree').replace(r'\.?', '')`,
giving "bachelors degree", "masters degree", "phd", "associates degree"). -/
def extract_education (text : String) : List String :=
  let tl := (lowerStr text).data
  (if reSearchB (degreeAt "bachelor") tl then ["bachelors degree"] else []) ++
  (if reSearchB (degreeAt "master") tl then ["masters degree"] else []) ++
  (if reSearchB phdAt tl then ["phd"] else []) ++
  (if reSearchB (degreeAt "associate") tl then ["associates degree"] else [])

/-- Round a rational to the nearest integer, ties to even (the rounding
mode of Python's `round`). -/
def roundHalfEven (q : ℚ) : ℤ :=
  if q - (⌊q⌋ : ℚ) < 1 / 2 then ⌊q⌋
  else if 1 / 2 < q - (⌊q⌋ : ℚ) then ⌊q⌋ + 1
  else if ⌊q⌋ % 2 = 0 then ⌊q⌋ else ⌊q⌋ + 1

/-- Python `round(x, 2)` on the rational model of floats. -/
def round2 (q : ℚ) : ℚ :=
  ((roundHalfEven (q * 100) : ℤ) : ℚ) / 100

/-- `ResumeAnalyzer.calculate_ats_score`: 0.0 for an empty job keyword
list, else `round(min(len(set(resume) & set(job)) / len(job) * 100,
100.0), 2)` — note the denominator is the *length of the job keyword
list*, not the size of its set. -/
def calculate_ats_score (resume_keywords job_keywords : List String) : ℚ :=
  if job_keywords = [] then 0
  else
    round2 (min (((resume_keywords.toFinset ∩ job_keywords.toFinset).card : ℚ) /
      (job_keywords.length : ℚ) * 100) 100)

/-- Python `sep.join(l)`. -/
def joinSep (sep : String) : List String → String
  | [] => ""
  | [x] => x
  | x :: y :: xs => x ++ sep ++ joinSep sep (y :: xs)

/-- `ResumeAnalyzer.generate_suggestions`: four independent rules emitted
in order (the `job_keywords` parameter is unused by the source body). -/
def generate_suggestions (resume_keywords job_keywords missing_keywords : List String) :
    List String :=
  (if missing_keywords.isEmpty then []
   else ["Add these keywords to your resume: " ++ joinSep ", " (missing_keywords.take 5)]) ++
  (if resume_keywords.length < 20
   then ["Consider adding more specific skills and keywords to your resume"] else []) ++
  (if soft_skills.any (fun k => resume_keywords.contains k) then []
   else ["Include soft skills like leadership, communication, and teamwork"]) ++
  (if technical_skills.any (fun k => resume_keywords.contains k) then []
   else ["Add technical skills relevant to your target position"])

/-- Errors raised by `analyze_resume` (both are `ValueError` in the
source, distinguished by their messages). -/
inductive AnalyzeError where
  | unsupportedFormat
  | extractionError
deriving DecidableEq

/-- The analysis result dictionary built by `analyze_resume`. -/
structure AnalysisResult where
  extracted_text : String
  keywords : List String
  skills : List String
  experience_years : Option Nat
  education : List String
  ats_score : ℚ
  suggestions : List String
  matched_keywords : List String
  missing_keywords : List String
  analyzed_at : Nat
deriving DecidableEq

/-- The job-description-dependent block of `analyze_resume`: the source
initializes `job_keywords` to `[]` and overwrites it with
`extract_keywords(job_description)` when the description is non-empty
(Python truthiness of the string). -/
def job_keywords_for (cfg : Config) (job_description : String) : List String :=
  if job_description = "" then [] else extract_keywords cfg job_description

/-- Python `matched_keywords = list(set(keywords) & set(job_keywords))`,
modelled as a membership filter (the same set, in a deterministic
order). -/
def matched_keywords_for (cfg : Config) (keywords : List String)
    (job_description : String) : List String :=
  if job_description = "" then []
  else keywords.filter fun k => decide (k ∈ job_keywords_for cfg job_description)

/-- Python `missing_keywords = list(set(job_keywords) - set(keywords))`,
modelled as a membership filter. -/
def missing_keywords_for (cfg : Config) (keywords : List String)
    (job_description : String) : List String :=
  if job_description = "" then []
  else (job_keywords_for cfg job_description).filter fun k => decide (k ∉ keywords)

/-- Python `ats_score`: 0.0 unless a job description is given. -/
def ats_score_for (cfg : Config) (keywords : List String)
    (job_description : String) : ℚ :=
  if job_description = "" then 0
  else calculate_ats_score keywords (job_keywords_for cfg job_description)

def build_analysis (cfg : Config) (text : String) (job_description : String) (now : Nat) :
    AnalysisResult :=
  { extracted_text := text
    keywords := extract_keywords cfg text
    skills := extract_skills text
    experience_years := extract_experience_years text
    education := extract_education text
    ats_score := ats_score_for cfg (extract_keywords cfg text) job_description
    suggestions := generate_suggestions (extract_keywords cfg text)
      (job_keywords_for cfg job_description)
      (missing_keywords_for cfg (extract_keywords cfg text) job_description)
    matched_keywords := matched_keywords_for cfg (extract_keywords cfg text) job_description
    missing_keywords := missing_keywords_for cfg (extract_keywords cfg text) job_description
    analyzed_at := now }

/-- Python `str.endswith` on the ASCII fragment. -/
def endsWithB (s post : String) : Bool :=
  leadsList post.data.reverse s.data.reverse

/-- The uncached pipeline of `analyze_resume` (everything after the cache
lookup and before the cache write): select the extractor by filename
extension, reject empty extractions, build the result. -/
def analyze_core (cfg : Config) (file_content : List Nat)
    (filename job_description : String) (now : Nat) :
    Except AnalyzeError AnalysisResult :=
  if endsWithB (lowerStr filename) ".pdf" then
    let text := extract_text_from_pdf cfg file_content
    if stripStr text = "" then Except.error AnalyzeError.extractionError
    else Except.ok (build_analysis cfg text job_description now)
  else if endsWithB (lowerStr filename) ".docx" then
    let text := extract_text_from_docx cfg file_content
    if stripStr text = "" then Except.error AnalyzeError.extractionError
    else Except.ok (build_analysis cfg text job_description now)
  else Except.error AnalyzeError.unsupportedFormat

/-- The Redis result cache: key (the document bytes, standing for their
md5 fingerprint), cached result, absolute expiry time. -/
def Cache : Type := List (List Nat × AnalysisResult × Nat)

/-- Redis `get` at the current time: a stored entry is visible while
`now` is before its expiry. -/
def redisGet (c : Cache) (now : Nat) (key : List Nat) : Option AnalysisResult :=
  match List.find? (fun e => decide (e.1 = key)) c with
  | none => none
  | some e => if now < e.2.2 then some e.2.1 else none

/-- Redis `setex key ttl value` at the current time. -/
def redisSetex (c : Cache) (key : List Nat) (ttl : Nat) (v : AnalysisResult) (now : Nat) :
    Cache :=
  (key, v, now + ttl) :: List.filter (fun e => decide (e.1 ≠ key)) c

/-- `ResumeAnalyzer.analyze_resume`: check the cache (keyed by document
bytes alone) and return any live entry; otherwise run the pipeline and,
on success only, store the result with TTL 3600.  The state-passing pair
returns the cache as left by the call. -/
def analyze_resume (cfg : Config) (c : Cache) (now : Nat) (file_content : List Nat)
    (filename : String) (job_description : String) :
    Except AnalyzeError AnalysisResult × Cache :=
  match redisGet c now file_content with
  | some cached => (Except.ok cached, c)
  | none =>
    match analyze_core cfg file_content filename job_description now with
    | Except.error e => (Except.error e, c)
    | Except.ok r => (Except.ok r, redisSetex c file_content 3600 r now)

/-- The scorer formula as the specification's claim states it, with the
size of the *set* of job tokens as denominator; written only to be
compared against `calculate_ats_score`. -/
def claimed_ats_score (resume_tokens job_tokens : List String) : ℚ :=
  if job_tokens = [] then 0
  else
    round2 (min (100 * ((resume_tokens.toFinset ∩ job_tokens.toFinset).card : ℚ) /
      (job_tokens.toFinset.card : ℚ)) 100)

theorem roundHalfEven_intCast (n : ℤ) : roundHalfEven ((n : ℚ)) = n := by
  unfold roundHalfEven
  rw [Int.floor_intCast]
  norm_num

theorem round2_intCast (n : ℤ) : round2 ((n : ℚ)) = (n : ℚ) := by
  unfold round2
  rw [show ((n : ℚ) * 100) = (((n * 100 : ℤ)) : ℚ) by push_cast; ring,
    roundHalfEven_intCast]
  push_cast
  ring

theorem roundHalfEven_nonneg {q : ℚ} (h : 0 ≤ q) : 0 ≤ roundHalfEven q := by
  unfold roundHalfEven
  have hf : (0 : ℤ) ≤ ⌊q⌋ := Int.floor_nonneg.mpr h
  split_ifs <;> omega

theorem roundHalfEven_le {q : ℚ} {n : ℤ} (h : q ≤ (n : ℚ)) : roundHalfEven q ≤ n := by
  unfold roundHalfEven
  have hf : ⌊q⌋ ≤ n := by
    calc ⌊q⌋ ≤ ⌊(n : ℚ)⌋ := Int.floor_le_floor h
    _ = n := Int.floor_intCast n
  have hfl : (⌊q⌋ : ℚ) ≤ q := Int.floor_le q
  split_ifs with h1 h2
  · exact hf
  · have hhalf : (1 : ℚ) / 2 ≤ q - (⌊q⌋ : ℚ) := le_of_lt h2
    have : (⌊q⌋ : ℚ) < (n : ℚ) := by linarith
    have : ⌊q⌋ < n := by exact_mod_cast this
    omega
  · exact hf
  · have hhalf : ¬ (q - (⌊q⌋ : ℚ) < 1 / 2) := h1
    have : (1 : ℚ) / 2 ≤ q - (⌊q⌋ : ℚ) := not_lt.mp hhalf
    have : (⌊q⌋ : ℚ) < (n : ℚ) := by linarith
    have : ⌊q⌋ < n := by exact_mod_cast this
    omega

theorem round2_nonneg {q : ℚ} (h : 0 ≤ q) : 0 ≤ round2 q := by
  unfold round2
  have : (0 : ℤ) ≤ roundHalfEven (q * 100) := roundHalfEven_nonneg (by positivity)
  positivity

theorem round2_le_100 {q : ℚ} (h : q ≤ 100) : round2 q ≤ 100 := by
  unfold round2
  have h1 : q * 100 ≤ ((10000 : ℤ) : ℚ) := by push_cast; linarith
  have h2 : roundHalfEven (q * 100) ≤ 10000 := roundHalfEven_le h1
  have h3 : ((roundHalfEven (q * 100) : ℤ) : ℚ) ≤ 10000 := by exact_mod_cast h2
  linarith

theorem calculate_ats_score_nonneg (r j : List String) : 0 ≤ calculate_ats_score r j := by
  unfold calculate_ats_score
  split_ifs
  · exact le_refl 0
  · exact round2_nonneg (le_min (by positivity) (by norm_num))

theorem calculate_ats_score_le_100 (r j : List String) :
    calculate_ats_score r j ≤ 100 := by
  unfold calculate_ats_score
  split_ifs
  · norm_num
  · exact round2_le_100 (min_le_right _ _)

/-- Claim C2, counterexample: with the duplicate-bearing job token list
`["a", "a"]` the source divides by the list length 2 and returns 50,
while the claim's formula divides by the size of the token set and
yields 100. -/
theorem c2_score_formula_counterexample :
    calculate_ats_score ["a"] ["a", "a"] = 50 ∧
    claimed_ats_score ["a"] ["a", "a"] = 100 ∧
    calculate_ats_score ["a"] ["a", "a"] ≠ claimed_ats_score ["a"] ["a", "a"] := by
  have hc : (((["a"] : List String).toFinset ∩ (["a", "a"] : List String).toFinset).card) = 1 := by
    decide
  have h50 : calculate_ats_score ["a"] ["a", "a"] = 50 := by
    have hl : (["a", "a"] : List String).length = 2 := by decide
    simp only [calculate_ats_score, hc, hl,
      if_neg (show ¬((["a", "a"] : List String) = []) by decide)]
    rw [show min (((1 : ℕ) : ℚ) / ((2 : ℕ) : ℚ) * 100) 100 = ((50 : ℤ) : ℚ) by
      push_cast; norm_num]
    rw [round2_intCast]
    norm_num
  have h100 : claimed_ats_score ["a"] ["a", "a"] = 100 := by
    have hl : ((["a", "a"] : List String).toFinset.card) = 1 := by decide
    simp only [claimed_ats_score, hc, hl,
      if_neg (show ¬((["a", "a"] : List String) = []) by decide)]
    rw [show (100 : ℚ) * ((1 : ℕ) : ℚ) / ((1 : ℕ) : ℚ) = (100 : ℚ) by push_cast; norm_num]
    rw [min_self]
    rw [show (100 : ℚ) = ((100 : ℤ) : ℚ) by norm_num, round2_intCast]
  refine ⟨h50, h100, ?_⟩
  rw [h50, h100]
  norm_num

/-- Claim C2 as amended: `calculate_ats_score` returns 0 when the job
token list is empty, and otherwise `min(100, 100 * |set(resume) ∩
set(job)| / len(job_tokens))` rounded to 2 decimal places, where the
denominator is the *length of the job token list* (duplicates counted);
the score always lies in [0, 100]. -/
theorem score_formula_and_bounds (resume_tokens job_tokens : List String) :
    (job_tokens = [] → calculate_ats_score resume_tokens job_tokens = 0) ∧
    (job_tokens ≠ [] → calculate_ats_score resume_tokens job_tokens =
      round2 (min (100 * ((resume_tokens.toFinset ∩ job_tokens.toFinset).card : ℚ) /
        (job_tokens.length : ℚ)) 100)) ∧
    0 ≤ calculate_ats_score resume_tokens job_tokens ∧
    calculate_ats_score resume_tokens job_tokens ≤ 100 := by
  refine ⟨?_, ?_, calculate_ats_score_nonneg _ _, calculate_ats_score_le_100 _ _⟩
  · intro h
    unfold calculate_ats_score
    rw [if_pos h]
  · intro h
    unfold calculate_ats_score
    rw [if_neg h]
    rw [show (100 : ℚ) * ((resume_tokens.toFinset ∩ job_tokens.toFinset).card : ℚ) /
        (job_tokens.length : ℚ) =
        ((resume_tokens.toFinset ∩ job_tokens.toFinset).card : ℚ) /
        (job_tokens.length : ℚ) * 100 by ring]

/-- Claim C2 witness: the amended formula instantiated at resume tokens
`["a"]` and job tokens `["b"]`. -/
theorem score_formula_and_bounds_witness :
    ((["b"] : List String) ≠ []) ∧
    calculate_ats_score ["a"] ["b"] =
      round2 (min (100 * (((["a"] : List String).toFinset ∩
        (["b"] : List String).toFinset).card : ℚ) /
        (((["b"] : List String).length : ℚ))) 100) :=
  ⟨by decide, (score_formula_and_bounds ["a"] ["b"]).2.1 (by decide)⟩

/-- Claim C8: a non-empty job token set contained in the resume token set
scores exactly 100, and no pair of inputs ever scores above 100. -/
theorem perfect_overlap_score (resume_tokens job_tokens : List String)
    (hnd : job_tokens.Nodup) (hne : job_tokens ≠ [])
    (hsub : job_tokens.toFinset ⊆ resume_tokens.toFinset) :
    calculate_ats_score resume_tokens job_tokens = 100 ∧
    ∀ r2 j2 : List String, calculate_ats_score r2 j2 ≤ 100 := by
  constructor
  · unfold calculate_ats_score
    rw [if_neg hne]
    rw [Finset.inter_eq_right.mpr hsub]
    rw [List.toFinset_card_of_nodup hnd]
    have hlen : ((job_tokens.length : ℚ)) ≠ 0 := by
      have h0 : job_tokens.length ≠ 0 := by
        intro h0
        exact hne (List.length_eq_zero.mp h0)
      exact_mod_cast h0
    rw [div_self hlen, one_mul, min_self]
    rw [show (100 : ℚ) = ((100 : ℤ) : ℚ) by norm_num, round2_intCast]
  · intro r2 j2
    exact calculate_ats_score_le_100 r2 j2

/-- Claim C8 witness: job tokens `["a"]` inside resume tokens
`["a", "b"]` score exactly 100. -/
theorem perfect_overlap_score_witness :
    calculate_ats_score ["a", "b"] ["a"] = 100 ∧
    ∀ r2 j2 : List String, calculate_ats_score r2 j2 ≤ 100 :=
  perfect_overlap_score ["a", "b"] ["a"] (by decide) (by decide) (by decide)

theorem if_isEmpty_eq_if_ne {α : Type} (m : List String) (x : List α) :
    (if m.isEmpty then [] else x) = (if m ≠ [] then x else []) := by
  cases m <;> simp

theorem if_any_eq_if_forall {α : Type} (v r : List String) (x : List α) :
    (if v.any (fun k => r.contains k) then [] else x) =
    (if (∀ k ∈ v, ¬ k ∈ r) then x else []) := by
  by_cases h : v.any (fun k => r.contains k)
  · rw [if_pos h, if_neg]
    simp only [List.any_eq_true] at h
    obtain ⟨a, ha, hc⟩ := h
    intro hall
    exact hall a ha (by simpa using hc)
  · rw [if_neg h, if_pos]
    intro k hk hkr
    apply h
    simp only [List.any_eq_true]
    exact ⟨k, hk, by simpa using hkr⟩

/-- Claim C9: `generate_suggestions` is exactly the concatenation, in
fixed order, of its four independent rules — a missing-keyword
suggestion listing the first 5 entries of the missing list in its own
order, a fewer-than-20-keywords suggestion, a soft-skills suggestion
when no resume token equals a soft-skills vocabulary entry, and a
technical-skills suggestion when no resume token equals a
technical-skills vocabulary entry; every applicable rule fires and none
suppresses a later one. -/
theorem generate_suggestions_rules (resume_tokens job_tokens missing : List String) :
    generate_suggestions resume_tokens job_tokens missing =
      (if missing ≠ [] then
        ["Add these keywords to your resume: " ++ joinSep ", " (missing.take 5)] else []) ++
      (if resume_tokens.length < 20 then
        ["Consider adding more specific skills and keywords to your resume"] else []) ++
      (if (∀ k ∈ soft_skills, ¬ k ∈ resume_tokens) then
        ["Include soft skills like leadership, communication, and teamwork"] else []) ++
      (if (∀ k ∈ technical_skills, ¬ k ∈ resume_tokens) then
        ["Add technical skills relevant to your target position"] else []) := by
  unfold generate_suggestions
  rw [if_isEmpty_eq_if_ne, if_any_eq_if_forall, if_any_eq_if_forall]

/-- Claim C7: `extract_experience_years` tries the three patterns in
their fixed order over the lower-cased text and returns the first
capture; when the first two patterns fail it returns exactly the result
of the third (in particular `none` when all three fail), with no
aggregation across multiple mentions. -/
theorem extract_experience_years_first_match (text : String) :
    (∀ n, reSearch matchPat1 ((lowerStr text).data) = some n →
      extract_experience_years text = some n) ∧
    (reSearch matchPat1 ((lowerStr text).data) = none →
      ∀ n, reSearch matchPat2 ((lowerStr text).data) = some n →
        extract_experience_years text = some n) ∧
    (reSearch matchPat1 ((lowerStr text).data) = none →
      reSearch matchPat2 ((lowerStr text).data) = none →
      extract_experience_years text = reSearch matchPat3 ((lowerStr text).data)) := by
  refine ⟨?_, ?_, ?_⟩
  · intro n h
    unfold extract_experience_years
    rw [h]
  · intro h1 n h2
    unfold extract_experience_years
    rw [h1, h2]
  · intro h1 h2
    unfold extract_experience_years
    rw [h1, h2]

/-- Claim C7 witness: on a text mentioning two experience durations the
first pattern's leftmost match (3) wins; no aggregation happens. -/
theorem extract_experience_years_first_match_witness :
    extract_experience_years "Alice has 3 years of experience and 7 years of experience" =
      some 3 :=
  (extract_experience_years_first_match
    "Alice has 3 years of experience and 7 years of experience").1 3 (by decide)

theorem filter_mem_toFinset (l1 l2 : List String) :
    (l1.filter fun k => decide (k ∈ l2)).toFinset = l1.toFinset ∩ l2.toFinset := by
  ext a
  simp [List.mem_filter]

theorem filter_not_mem_toFinset (l1 l2 : List String) :
    (l1.filter fun k => decide (k ∉ l2)).toFinset = l1.toFinset \ l2.toFinset := by
  ext a
  simp [List.mem_filter]

theorem analyze_core_ok_build {cfg : Config} {b : List Nat} {f jd : String} {t : Nat}
    {r : AnalysisResult} (h : analyze_core cfg b f jd t = Except.ok r) :
    (endsWithB (lowerStr f) ".pdf" = true ∧
      r = build_analysis cfg (extract_text_from_pdf cfg b) jd t) ∨
    (endsWithB (lowerStr f) ".pdf" = false ∧ endsWithB (lowerStr f) ".docx" = true ∧
      r = build_analysis cfg (extract_text_from_docx cfg b) jd t) := by
  unfold analyze_core at h
  by_cases h1 : endsWithB (lowerStr f) ".pdf"
  · rw [if_pos h1] at h
    by_cases h2 : stripStr (extract_text_from_pdf cfg b) = ""
    · rw [if_pos h2] at h
      exact absurd h (by simp)
    · rw [if_neg h2] at h
      exact Or.inl ⟨h1, (Except.ok.inj h).symm⟩
  · rw [if_neg h1] at h
    by_cases h2 : endsWithB (lowerStr f) ".docx"
    · rw [if_pos h2] at h
      by_cases h3 : stripStr (extract_text_from_docx cfg b) = ""
      · rw [if_pos h3] at h
        exact absurd h (by simp)
      · rw [if_neg h3] at h
        exact Or.inr ⟨by simpa using h1, h2, (Except.ok.inj h).symm⟩
    · rw [if_neg h2] at h
      exact absurd h (by simp)

/-- Claim C3: every successful run of the uncached pipeline with a
non-empty job description satisfies the set laws — matched keywords are
exactly `keywords ∩ job_keywords`, missing keywords exactly
`job_keywords − keywords`, matched ⊆ keywords, matched and missing are
disjoint, missing is disjoint from keywords; with an empty job
description the score is 0 and both lists are empty. -/
theorem analysis_set_laws (cfg : Config) (b : List Nat) (f jd : String) (t : Nat)
    (r : AnalysisResult) (h : analyze_core cfg b f jd t = Except.ok r) :
    (jd ≠ "" →
      r.matched_keywords.toFinset =
        r.keywords.toFinset ∩ (extract_keywords cfg jd).toFinset ∧
      r.missing_keywords.toFinset =
        (extract_keywords cfg jd).toFinset \ r.keywords.toFinset ∧
      r.matched_keywords.toFinset ⊆ r.keywords.toFinset ∧
      r.matched_keywords.toFinset ∩ r.missing_keywords.toFinset = ∅ ∧
      r.missing_keywords.toFinset ∩ r.keywords.toFinset = ∅) ∧
    (jd = "" → r.ats_score = 0 ∧ r.matched_keywords = [] ∧ r.missing_keywords = []) := by
  have hb : ∃ text, r = build_analysis cfg text jd t := by
    rcases analyze_core_ok_build h with ⟨_, hr⟩ | ⟨_, _, hr⟩
    exacts [⟨_, hr⟩, ⟨_, hr⟩]
  obtain ⟨text, rfl⟩ := hb
  constructor
  · intro hne
    have hm : (build_analysis cfg text jd t).matched_keywords =
        (extract_keywords cfg text).filter (fun k => decide (k ∈ job_keywords_for cfg jd)) := by
      show matched_keywords_for cfg (extract_keywords cfg text) jd = _
      unfold matched_keywords_for
      rw [if_neg hne]
    have hmi : (build_analysis cfg text jd t).missing_keywords =
        (job_keywords_for cfg jd).filter (fun k => decide (k ∉ extract_keywords cfg text)) := by
      show missing_keywords_for cfg (extract_keywords cfg text) jd = _
      unfold missing_keywords_for
      rw [if_neg hne]
    have hjk : job_keywords_for cfg jd = extract_keywords cfg jd := by
      unfold job_keywords_for
      rw [if_neg hne]
    have hkw : (build_analysis cfg text jd t).keywords = extract_keywords cfg text := rfl
    rw [hkw, hm, hmi, hjk]
    refine ⟨filter_mem_toFinset _ _, filter_not_mem_toFinset _ _, ?_, ?_, ?_⟩
    · rw [filter_mem_toFinset]
      exact Finset.inter_subset_left
    · rw [filter_mem_toFinset, filter_not_mem_toFinset]
      ext a
      simp only [Finset.mem_inter, Finset.mem_sdiff, Finset.not_mem_empty, iff_false]
      tauto
    · rw [filter_not_mem_toFinset]
      ext a
      simp only [Finset.mem_inter, Finset.mem_sdiff, Finset.not_mem_empty, iff_false]
      tauto
  · intro he
    subst he
    exact ⟨rfl, rfl, rfl⟩

/-- Claim C6: two runs of the uncached pipeline on the same bytes,
filename and job description produce identical results in every field
except `analyzed_at`, whatever the two invocation times are. -/
theorem analyze_repeat_deterministic (cfg : Config) (b : List Nat) (f jd : String)
    (t1 t2 : Nat) (r1 r2 : AnalysisResult)
    (h1 : analyze_core cfg b f jd t1 = Except.ok r1)
    (h2 : analyze_core cfg b f jd t2 = Except.ok r2) :
    r1.extracted_text = r2.extracted_text ∧ r1.keywords = r2.keywords ∧
    r1.skills = r2.skills ∧ r1.experience_years = r2.experience_years ∧
    r1.education = r2.education ∧ r1.ats_score = r2.ats_score ∧
    r1.matched_keywords = r2.matched_keywords ∧
    r1.missing_keywords = r2.missing_keywords ∧ r1.suggestions = r2.suggestions := by
  rcases analyze_core_ok_build h1 with ⟨hp1, hr1⟩ | ⟨hp1, hd1, hr1⟩ <;>
    rcases analyze_core_ok_build h2 with ⟨hp2, hr2⟩ | ⟨hp2, hd2, hr2⟩
  · subst hr1
    subst hr2
    exact ⟨rfl, rfl, rfl, rfl, rfl, rfl, rfl, rfl, rfl⟩
  · rw [hp1] at hp2
    exact Bool.noConfusion hp2
  · rw [hp2] at hp1
    exact Bool.noConfusion hp1
  · subst hr1
    subst hr2
    exact ⟨rfl, rfl, rfl, rfl, rfl, rfl, rfl, rfl, rfl⟩

/-- Claim C10: whenever `analyze_resume` fails — with either error — the
cache it returns is exactly the cache it was given: both errors are
raised before the cache write, so no entry is created or updated. -/
theorem analyze_error_preserves_cache (cfg : Config) (c : Cache) (now : Nat)
    (b : List Nat) (f jd : String) (e : AnalyzeError) (c2 : Cache)
    (h : analyze_resume cfg c now b f jd = (Except.error e, c2)) : c2 = c := by
  unfold analyze_resume at h
  cases hg : redisGet c now b with
  | some v =>
    rw [hg] at h
    simp at h
  | none =>
    rw [hg] at h
    cases hc : analyze_core cfg b f jd now with
    | error e2 =>
      rw [hc] at h
      simp only [Prod.mk.injEq] at h
      exact h.2.symm
    | ok r =>
      rw [hc] at h
      simp at h

/-- Claim C1: the cache is keyed by the document bytes alone.  A first
call that misses and succeeds stores its result with TTL 3600; any
second call with byte-identical content before that TTL expires returns
the first call's stored result unchanged — whatever its filename and
job description are — and leaves the cache as it was. -/
theorem cache_hit_returns_first_result (cfg : Config) (c : Cache) (t1 t2 : Nat)
    (b : List Nat) (f1 j1 f2 j2 : String) (r : AnalysisResult) (c1 : Cache)
    (hmiss : redisGet c t1 b = none)
    (h1 : analyze_resume cfg c t1 b f1 j1 = (Except.ok r, c1))
    (hTTL : t2 < t1 + 3600) :
    analyze_resume cfg c1 t2 b f2 j2 = (Except.ok r, c1) ∧
    c1 = redisSetex c b 3600 r t1 := by
  unfold analyze_resume at h1
  rw [hmiss] at h1
  cases hc : analyze_core cfg b f1 j1 t1 with
  | error e =>
    rw [hc] at h1
    simp at h1
  | ok r0 =>
    rw [hc] at h1
    simp only [Prod.mk.injEq] at h1
    obtain ⟨hr, hcache⟩ := h1
    have hr0 : r0 = r := Except.ok.inj hr
    subst hr0
    subst hcache
    refine ⟨?_, rfl⟩
    have hget : redisGet (redisSetex c b 3600 r0 t1) t2 b = some r0 := by
      unfold redisSetex redisGet
      rw [List.find?_cons_of_pos _ (by simp)]
      simp only
      rw [if_pos hTTL]
    unfold analyze_resume
    rw [hget]

/-- Claim C4 as amended: on a cache miss (no live entry for the bytes),
a filename whose lower-cased form ends neither in ".pdf" nor ".docx"
makes the call fail with the unsupported-format error, whatever the
document bytes; on a cache hit the extension is never examined. -/
theorem unsupported_format_on_miss (cfg : Config) (c : Cache) (now : Nat)
    (b : List Nat) (f jd : String)
    (hmiss : redisGet c now b = none)
    (hpdf : endsWithB (lowerStr f) ".pdf" = false)
    (hdocx : endsWithB (lowerStr f) ".docx" = false) :
    analyze_resume cfg c now b f jd = (Except.error AnalyzeError.unsupportedFormat, c) := by
  unfold analyze_resume
  rw [hmiss]
  unfold analyze_core
  rw [hpdf, hdocx]
  simp

/-- Claim C5 as amended: on a cache miss, a recognized extension whose
extractor output strips to the empty string fails with the extraction
error (for both formats); and the extractors never fail — when every
strategy reports failure they return the empty string. -/
theorem empty_extraction_on_miss (cfg : Config) (c : Cache) (now : Nat)
    (b : List Nat) (f jd : String) :
    (redisGet c now b = none → endsWithB (lowerStr f) ".pdf" = true →
      stripStr (extract_text_from_pdf cfg b) = "" →
      analyze_resume cfg c now b f jd = (Except.error AnalyzeError.extractionError, c)) ∧
    (redisGet c now b = none → endsWithB (lowerStr f) ".pdf" = false →
      endsWithB (lowerStr f) ".docx" = true →
      stripStr (extract_text_from_docx cfg b) = "" →
      analyze_resume cfg c now b f jd = (Except.error AnalyzeError.extractionError, c)) ∧
    (cfg.pdfStrategyA b = none → cfg.pdfStrategyB b = none →
      extract_text_from_pdf cfg b = "") ∧
    (cfg.docxExtract b = none → extract_text_from_docx cfg b = "") := by
  refine ⟨?_, ?_, ?_, ?_⟩
  · intro hmiss hpdf hempty
    unfold analyze_resume
    rw [hmiss]
    unfold analyze_core
    rw [hpdf]
    simp only [if_true]
    rw [if_pos hempty]
  · intro hmiss hpdf hdocx hempty
    unfold analyze_resume
    rw [hmiss]
    unfold analyze_core
    rw [hpdf, hdocx]
    simp only [Bool.false_eq_true, if_false, if_true]
    rw [if_pos hempty]
  · intro ha hb
    unfold extract_text_from_pdf
    rw [ha, hb]
  · intro ha
    unfold extract_text_from_docx
    rw [ha]

/-- Whitespace word splitter used as a concrete stand-in for NLTK's
`word_tokenize` in the witness instantiations below. -/
def splitWordsAux : List Char → List Char → List String
  | acc, [] => if acc.isEmpty then [] else [String.mk acc.reverse]
  | acc, c :: cs =>
    if c = ' ' then
      if acc.isEmpty then splitWordsAux [] cs
      else String.mk acc.reverse :: splitWordsAux [] cs
    else splitWordsAux (c :: acc) cs

/-- Wrapper of `splitWordsAux` on strings. -/
def splitWords (s : String) : List String := splitWordsAux [] s.data

/-- Concrete collaborator instantiation for witnesses: the PDF primary
strategy succeeds with a fixed text, the DOCX extractor with another. -/
def cfgW : Config :=
  { pdfStrategyA := fun _ => some "python sql experience"
    pdfStrategyB := fun _ => none
    docxExtract := fun _ => some "java developer"
    word_tokenize := splitWords
    stop_words := []
    lemmatize := fun t => t }

/-- Concrete document bytes for witnesses. -/
def bW : List Nat := [1]

/-- Result of the first witness call (pdf, job description given). -/
def rA : AnalysisResult := build_analysis cfgW "python sql experience" "python sql" 0

/-- Cache left by the first witness call. -/
def cA : Cache := [(bW, rA, 3600)]

/-- Claim C1 witness: a first call at time 0 (pdf, job description
"python sql") misses, stores its result, and a second call at time 10
with the same bytes but a docx filename and the different job
description "java" returns the first call's stored result unchanged. -/
theorem cache_hit_returns_first_result_witness :
    (analyze_resume cfgW cA 10 bW "other.docx" "java" = (Except.ok rA, cA) ∧
      cA = redisSetex [] bW 3600 rA 0) :=
  cache_hit_returns_first_result cfgW [] 0 10 bW "resume.pdf" "python sql" "other.docx"
    "java" rA cA rfl rfl (by decide)

/-- Result of the first call of the C4 counterexample (no job
description). -/
def rB : AnalysisResult := build_analysis cfgW "python sql experience" "" 0

/-- Cache containing the C4 counterexample's live entry. -/
def cB : Cache := [(bW, rB, 3600)]

/-- Claim C4 counterexample: after a successful call cached the bytes
`bW`, a second call on the same bytes with the unrecognized filename
"resume.txt" does NOT fail with the unsupported-format error — it
returns the cached result, because the cache is consulted before the
extension is examined. -/
theorem unsupported_format_counterexample :
    analyze_resume cfgW [] 0 bW "resume.pdf" "" = (Except.ok rB, cB) ∧
    analyze_resume cfgW cB 10 bW "resume.txt" "" = (Except.ok rB, cB) ∧
    ∀ (e : AnalyzeError) (c2 : Cache),
      analyze_resume cfgW cB 10 bW "resume.txt" "" ≠ (Except.error e, c2) := by
  refine ⟨rfl, rfl, ?_⟩
  intro e c2 h
  rw [show analyze_resume cfgW cB 10 bW "resume.txt" "" = (Except.ok rB, cB) from rfl] at h
  simp at h

/-- Claim C4 witness (amended form): with an empty cache, the filename
"resume.txt" fails with the unsupported-format error. -/
theorem unsupported_format_on_miss_witness :
    analyze_resume cfgW [] 0 bW "resume.txt" "" =
      (Except.error AnalyzeError.unsupportedFormat, ([] : Cache)) :=
  unsupported_format_on_miss cfgW [] 0 bW "resume.txt" "" rfl rfl rfl

/-- Collaborator instantiation for the C5 counterexample: both PDF
strategies fail (so PDF extraction returns the empty string) while the
DOCX extractor succeeds. -/
def cfg5 : Config :=
  { pdfStrategyA := fun _ => none
    pdfStrategyB := fun _ => none
    docxExtract := fun _ => some "java developer"
    word_tokenize := splitWords
    stop_words := []
    lemmatize := fun t => t }

/-- Result cached by the C5 counterexample's first (docx) call. -/
def r5 : AnalysisResult := build_analysis cfg5 "java developer" "" 0

/-- Cache containing the C5 counterexample's live entry. -/
def c5c : Cache := [(bW, r5, 3600)]

/-- Claim C5 counterexample: PDF extraction of `bW` under `cfg5` is the
empty string, yet a call with filename "resume.pdf" on bytes already
cached (by an earlier docx call) succeeds instead of failing with the
extraction error — the claim's "every call" is false on cache hits. -/
theorem empty_extraction_counterexample :
    extract_text_from_pdf cfg5 bW = "" ∧
    analyze_resume cfg5 [] 0 bW "resume.docx" "" = (Except.ok r5, c5c) ∧
    analyze_resume cfg5 c5c 10 bW "resume.pdf" "" = (Except.ok r5, c5c) ∧
    ∀ (e : AnalyzeError) (c2 : Cache),
      analyze_resume cfg5 c5c 10 bW "resume.pdf" "" ≠ (Except.error e, c2) := by
  refine ⟨rfl, rfl, rfl, ?_⟩
  intro e c2 h
  rw [show analyze_resume cfg5 c5c 10 bW "resume.pdf" "" = (Except.ok r5, c5c) from rfl] at h
  simp at h

/-- Claim C5 witness (amended form): with an empty cache, the same call
fails with the extraction error. -/
theorem empty_extraction_on_miss_witness :
    analyze_resume cfg5 [] 0 bW "resume.pdf" "" =
      (Except.error AnalyzeError.extractionError, ([] : Cache)) :=
  (empty_extraction_on_miss cfg5 [] 0 bW "resume.pdf" "").1 rfl rfl rfl

/-- Claim C10 witness: an unsupported-format failure leaves the (empty)
cache unchanged. -/
theorem analyze_error_preserves_cache_witness : ([] : Cache) = ([] : Cache) :=
  analyze_error_preserves_cache cfgW [] 0 bW "resume.txt" ""
    AnalyzeError.unsupportedFormat [] rfl

/-- Pipeline result used by the C3 witness (job description
"java sql"). -/
def rJ : AnalysisResult := build_analysis cfgW "python sql experience" "java sql" 0

/-- Claim C3 witness: the set laws instantiated on a concrete pdf
analysis against the job description "java sql". -/
theorem analysis_set_laws_witness :
    ("java sql" ≠ "") ∧
    (rJ.matched_keywords.toFinset =
        rJ.keywords.toFinset ∩ (extract_keywords cfgW "java sql").toFinset ∧
      rJ.missing_keywords.toFinset =
        (extract_keywords cfgW "java sql").toFinset \ rJ.keywords.toFinset ∧
      rJ.matched_keywords.toFinset ⊆ rJ.keywords.toFinset ∧
      rJ.matched_keywords.toFinset ∩ rJ.missing_keywords.toFinset = ∅ ∧
      rJ.missing_keywords.toFinset ∩ rJ.keywords.toFinset = ∅) :=
  ⟨by decide, (analysis_set_laws cfgW bW "resume.pdf" "java sql" 0 rJ rfl).1 (by decide)⟩

/-- Pipeline result at time 5 for the C6 witness. -/
def rT1 : AnalysisResult := build_analysis cfgW "python sql experience" "java sql" 5

/-- Pipeline result at time 99 for the C6 witness. -/
def rT2 : AnalysisResult := build_analysis cfgW "python sql experience" "java sql" 99

/-- Claim C6 witness: two pipeline runs at times 5 and 99 on the same
bytes, filename and job description agree on every field except
`analyzed_at`. -/
theorem analyze_repeat_deterministic_witness :
    rT1.extracted_text = rT2.extracted_text ∧ rT1.keywords = rT2.keywords ∧
    rT1.skills = rT2.skills ∧ rT1.experience_years = rT2.experience_years ∧
    rT1.education = rT2.education ∧ rT1.ats_score = rT2.ats_score ∧
    rT1.matched_keywords = rT2.matched_keywords ∧
    rT1.missing_keywords = rT2.missing_keywords ∧ rT1.suggestions = rT2.suggestions :=
  analyze_repeat_deterministic cfgW bW "resume.pdf" "java sql" 5 99 rT1 rT2 rfl rfl
